import Mathlib

/-!
Verification development for the inwestomat-transactions converter
(src/inwestomat_transactions/__init__.py).

Embedding conventions:
* Python `Decimal` values flowing through the normalization rules are
  embedded as exact rationals (ℚ); the default `decimal` context never
  rounds the small products the converter computes, except inside
  `Decimal.normalize`, which is modelled separately (see `PyDecimal`
  below) for the writer round-trip claims.
* Python `datetime` values are embedded as an opaque integer timestamp:
  the rules only copy them around or extract a calendar date.
* A Python `dict[Ticker, Decimal]` price mapping is embedded as a total
  function `Ticker → ℚ` built with the same last-key-wins semantics as
  the dict literal in `find_pln_prices`; a lookup of a key absent from
  the dict (a `KeyError` in Python) is given the junk value 0 — no
  theorem below exercises that case.
* Python exceptions (`ValueError`, `NotImplementedError`, failed
  `assert`) are embedded as `Except String`.
-/

set_option maxRecDepth 8000

namespace Inwestomat

/-- Asset or currency symbol, kept as an opaque string. -/
abbrev Ticker := String

/-- Ordered market pair (base ticker, quote ticker). -/
abbrev Market := Ticker × Ticker

/-- Opaque timestamp standing in for a Python `datetime`. -/
abbrev DateTime := Int

/-- Transaction type enumeration from the source (`TxType`). -/
inductive TxType where
  | BUY
  | SELL
  | DEPOSIT
  | WITHDRAW
  | DIVIDEND_INTEREST
  | COSTS
  | SPLIT
deriving DecidableEq, Repr, Inhabited

/-- Constrained subtype `Literal[TxType.BUY, TxType.SELL]` from the source. -/
inductive BuyOrSell where
  | BUY
  | SELL
deriving DecidableEq, Repr, Inhabited

/-- Inclusion of the constrained trade subtype into `TxType`. -/
def BuyOrSell.toTxType : BuyOrSell → TxType
  | .BUY => .BUY
  | .SELL => .SELL

/-- Constrained subtype `Literal[TxType.DEPOSIT, TxType.WITHDRAW]` from the source. -/
inductive DepositOrWithdraw where
  | DEPOSIT
  | WITHDRAW
deriving DecidableEq, Repr, Inhabited

/-- Inclusion of the constrained cash-movement subtype into `TxType`. -/
def DepositOrWithdraw.toTxType : DepositOrWithdraw → TxType
  | .DEPOSIT => .DEPOSIT
  | .WITHDRAW => .WITHDRAW

/-- Currency enumeration from the source (`Currency`). -/
inductive Currency where
  | PLN
  | USD
  | EUR
  | GBP
  | CHF
deriving DecidableEq, Repr, Inhabited

/-- String value of a `Currency` member (`Currency.value` in Python). -/
def Currency.value : Currency → String
  | .PLN => "PLN"
  | .USD => "USD"
  | .EUR => "EUR"
  | .GBP => "GBP"
  | .CHF => "CHF"

/-- Cash ticker of a currency (`Currency.ticker` property in the source). -/
def Currency.ticker (c : Currency) : Ticker :=
  if c = Currency.PLN then "Gotówka" else "Waluty_" ++ c.value

/-- Exchange-A source record (`BinanceTx` dataclass). -/
structure BinanceTx where
  date : DateTime
  market : Market
  type : BuyOrSell
  amount : ℚ
  price : ℚ
  total : ℚ
  fee : ℚ
  fee_coin : Ticker
deriving DecidableEq, Repr

/-- Canonical ledger record (`InwestomatTx` dataclass). -/
structure InwestomatTx where
  date : DateTime
  ticker : Ticker
  currency : Currency
  type : TxType
  amount : ℚ
  price : ℚ
  pln_rate : ℚ
  nominal_price : ℚ
  total_pln : ℚ
  fee : ℚ
  comment : String := ""
deriving DecidableEq, Repr, Inhabited

/-- Synthetic PLN-pair ticker rewrite (`format_cryptocurrency_ticker`). -/
def format_cryptocurrency_ticker (ticker : Ticker) : Ticker :=
  "CURRENCY:" ++ ticker ++ "PLN"

/-- Price resolution step (`find_pln_prices`): resolves the quote asset's
domestic price through the injected lookup and derives the base asset's
price as `price * quote_asset_in_pln`.  The returned Python dict literal
`{base: …, quote: …}` is embedded as a total function with the dict's
last-key-wins semantics (when base = quote the quote entry survives). -/
def find_pln_prices (get_price : Market → ℚ) (market : Market) (price : ℚ) :
    Ticker → ℚ :=
  let base_asset := market.1
  let quote_asset := market.2
  let quote_asset_in_pln := get_price (quote_asset, "PLN")
  let base_asset_in_pln := price * quote_asset_in_pln
  fun t =>
    if t = quote_asset then quote_asset_in_pln
    else if t = base_asset then base_asset_in_pln
    else 0

/-- Exchange-A trade splitter (`split_binance_tx_to_inwestomat_txs`). -/
def split_binance_tx_to_inwestomat_txs (btx : BinanceTx)
    (pln_prices : Ticker → ℚ) : List InwestomatTx :=
  let parts :=
    match btx.type with
    | .BUY => (btx.market.1, btx.market.2, btx.total, btx.amount)
    | .SELL => (btx.market.2, btx.market.1, btx.amount, btx.total)
  let buy_ticker := parts.1
  let sell_ticker := parts.2.1
  let sell_amount := parts.2.2.1
  let buy_amount := parts.2.2.2
  let sell_price := pln_prices sell_ticker
  let buy_price := pln_prices buy_ticker
  let sell_total_pln := sell_amount * sell_price
  let buy_total_pln := buy_amount * buy_price
  let adjusted :=
    if btx.fee_coin = buy_ticker then (buy_amount - btx.fee, btx.fee * buy_price)
    else (buy_amount, 0)
  let buy_amount := adjusted.1
  let buy_fee := adjusted.2
  let sell_fee : ℚ := 0
  let sell_tx : InwestomatTx :=
    { date := btx.date
      ticker := format_cryptocurrency_ticker sell_ticker
      currency := Currency.PLN
      type := TxType.SELL
      amount := sell_amount
      price := sell_price
      pln_rate := 1
      nominal_price := 1
      total_pln := sell_total_pln
      fee := sell_fee }
  let buy_tx : InwestomatTx :=
    { date := btx.date
      ticker := format_cryptocurrency_ticker buy_ticker
      currency := Currency.PLN
      type := TxType.BUY
      amount := buy_amount
      price := buy_price
      pln_rate := 1
      nominal_price := 1
      total_pln := buy_total_pln
      fee := buy_fee }
  [sell_tx, buy_tx]

/-- Take-side (bought) ticker of an Exchange-A record, as selected by the
match at the top of `split_binance_tx_to_inwestomat_txs`. -/
def takeTicker (btx : BinanceTx) : Ticker :=
  match btx.type with
  | .BUY => btx.market.1
  | .SELL => btx.market.2

/-- Raw take-side (bought) amount of an Exchange-A record, before any fee
adjustment. -/
def rawTakeAmount (btx : BinanceTx) : ℚ :=
  match btx.type with
  | .BUY => btx.amount
  | .SELL => btx.total

/-- Raw give-side (sold) amount of an Exchange-A record. -/
def rawGiveAmount (btx : BinanceTx) : ℚ :=
  match btx.type with
  | .BUY => btx.total
  | .SELL => btx.amount

/-- C1 counterexample input: a BUY record whose quote-total does not equal
amount × unit price (total 2 but amount × price = 1). -/
def btxC1 : BinanceTx :=
  { date := 0, market := ("ADA", "BTC"), type := .BUY, amount := 1, price := 1,
    total := 2, fee := 0, fee_coin := "" }

/-- C2 example input from the spec: BUY of 24 ADA on market (ADA, BTC). -/
def btxC2 : BinanceTx :=
  { date := 77, market := ("ADA", "BTC"), type := .BUY, amount := 24,
    price := 0.0000072, total := 0.0001728, fee := 0.024, fee_coin := "ADA" }

/-- C2 resolved domestic price mapping {ADA: 1.8584496, BTC: 258118}. -/
def plnPricesC2 : Ticker → ℚ :=
  fun t => if t = "BTC" then 258118 else if t = "ADA" then 1.8584496 else 0

/-- Exchange-B trade record (`XtbBuySell` dataclass). -/
structure XtbBuySell where
  id : String
  type : BuyOrSell
  time : DateTime
  symbol : Ticker
  asset_amount : ℚ
  price : ℚ
  currency_amount : ℚ
deriving DecidableEq, Repr, Inhabited

/-- Exchange-B cash-movement record (`XtbDepositWithdraw` dataclass). -/
structure XtbDepositWithdraw where
  id : String
  type : DepositOrWithdraw
  time : DateTime
  currency_amount : ℚ
deriving DecidableEq, Repr, Inhabited

/-- Exchange-B dividend/interest record (`XtbDividendInterest` dataclass);
an empty `symbol` means cash-only interest. -/
structure XtbDividendInterest where
  id : String
  time : DateTime
  symbol : Ticker
  currency_amount : ℚ
deriving DecidableEq, Repr, Inhabited

/-- Exchange-B cost/tax record (`XtbCosts` dataclass); an empty `symbol`
means an account-level fee. -/
structure XtbCosts where
  id : String
  time : DateTime
  symbol : Ticker
  currency_amount : ℚ
deriving DecidableEq, Repr, Inhabited

/-- Tagged union `XtbTx` of the four Exchange-B record shapes. -/
inductive XtbTx where
  | buySell (tx : XtbBuySell)
  | depositWithdraw (tx : XtbDepositWithdraw)
  | dividendInterest (tx : XtbDividendInterest)
  | costs (tx : XtbCosts)
deriving DecidableEq, Repr, Inhabited

/-- Signed settlement-currency cash delta shared by all four variants
(the `tx.currency_amount` attribute access in `convert_xtb_tx`). -/
def XtbTx.currency_amount : XtbTx → ℚ
  | .buySell tx => tx.currency_amount
  | .depositWithdraw tx => tx.currency_amount
  | .dividendInterest tx => tx.currency_amount
  | .costs tx => tx.currency_amount

/-- Local timestamp shared by all four variants (the `tx.time` attribute
access in `convert_xtb`). -/
def XtbTx.time : XtbTx → DateTime
  | .buySell tx => tx.time
  | .depositWithdraw tx => tx.time
  | .dividendInterest tx => tx.time
  | .costs tx => tx.time

/-- Splitting of a character list at the first occurrence of a separator,
mirroring Python `str.partition`: returns the part before the separator,
whether the separator occurred, and the part after it. -/
def partitionChars (sep : Char) : List Char → List Char × Bool × List Char
  | [] => ([], false, [])
  | c :: cs =>
    if c = sep then ([], true, cs)
    else
      let r := partitionChars sep cs
      (c :: r.1, r.2.1, r.2.2)

/-- Exchange-B ticker conversion (`convert_xtb_ticker`): a symbol of the
form code.country maps country PL to prefix WSE and UK to LON; a missing
dot fails the source's `assert sep`, and an unknown country raises
`ValueError`; both are embedded as `Except.error`. -/
def convert_xtb_ticker (ticker : Ticker) : Except String Ticker :=
  let parts := partitionChars '.' ticker.data
  let core : Ticker := ⟨parts.1⟩
  let sep := parts.2.1
  let country : Ticker := ⟨parts.2.2⟩
  if sep then
    if country = "PL" then .ok ("WSE:" ++ core)
    else if country = "UK" then .ok ("LON:" ++ core)
    else .error ("Nieznany kraj " ++ country ++ " w tickerze " ++ ticker)
  else .error "assert sep"

/-- Exchange-B normalization rule (`convert_xtb_tx`): maps one source
record, the account's settlement currency and its resolved domestic rate
to an asset/cash leg plus a mirrored currency leg, returning only the
asset leg when the settlement currency is domestic.  A `ValueError`
escaping from `convert_xtb_ticker` is embedded as `Except.error`. -/
def convert_xtb_tx (tx : XtbTx) (currency : Currency) (pln_rate : ℚ) :
    Except String (List InwestomatTx) := do
  let total_pln := |tx.currency_amount| * pln_rate
  let pair : InwestomatTx × InwestomatTx ←
    match tx with
    | .buySell t => do
        let currency_txtype :=
          match t.type with
          | .BUY => TxType.SELL
          | .SELL => TxType.BUY
        let ticker ← convert_xtb_ticker t.symbol
        let asset_tx : InwestomatTx :=
          { date := t.time, ticker := ticker, currency := currency,
            type := t.type.toTxType, amount := t.asset_amount, price := t.price,
            pln_rate := pln_rate, nominal_price := 1, total_pln := total_pln,
            fee := 0, comment := "ID:" ++ t.id }
        let currency_tx : InwestomatTx :=
          { date := t.time, ticker := currency.ticker, currency := currency,
            type := currency_txtype, amount := |t.currency_amount|, price := 1,
            pln_rate := pln_rate, nominal_price := 1, total_pln := total_pln,
            fee := 0, comment := "ID:" ++ t.id }
        pure (asset_tx, currency_tx)
    | .depositWithdraw t => do
        let currency_txtype :=
          match t.type with
          | .WITHDRAW => TxType.SELL
          | .DEPOSIT => TxType.BUY
        let asset_tx : InwestomatTx :=
          { date := t.time, ticker := Currency.PLN.ticker, currency := Currency.PLN,
            type := t.type.toTxType, amount := 1, price := 1,
            pln_rate := 1, nominal_price := 1, total_pln := total_pln,
            fee := 0, comment := "ID:" ++ t.id }
        let currency_tx : InwestomatTx :=
          { date := t.time, ticker := currency.ticker, currency := currency,
            type := currency_txtype, amount := |t.currency_amount|, price := 1,
            pln_rate := pln_rate, nominal_price := 1, total_pln := total_pln,
            fee := 0, comment := "ID:" ++ t.id }
        pure (asset_tx, currency_tx)
    | .dividendInterest t => do
        let ticker ←
          if t.symbol = "" then pure currency.ticker
          else convert_xtb_ticker t.symbol
        let asset_tx : InwestomatTx :=
          { date := t.time, ticker := ticker, currency := currency,
            type := TxType.DIVIDEND_INTEREST, amount := 1, price := 1,
            pln_rate := pln_rate, nominal_price := 1, total_pln := total_pln,
            fee := 0, comment := "ID:" ++ t.id }
        let currency_tx : InwestomatTx :=
          { date := t.time, ticker := currency.ticker, currency := currency,
            type := TxType.BUY, amount := |t.currency_amount|, price := 1,
            pln_rate := pln_rate, nominal_price := 1, total_pln := total_pln,
            fee := 0, comment := "ID:" ++ t.id }
        pure (asset_tx, currency_tx)
    | .costs t => do
        let ticker ←
          if t.symbol = "" then pure Currency.PLN.ticker
          else convert_xtb_ticker t.symbol
        let asset_tx : InwestomatTx :=
          { date := t.time, ticker := ticker, currency := Currency.PLN,
            type := TxType.COSTS, amount := 1, price := 1,
            pln_rate := pln_rate, nominal_price := 1, total_pln := total_pln,
            fee := 0, comment := "ID:" ++ t.id }
        let currency_tx : InwestomatTx :=
          { date := t.time, ticker := currency.ticker, currency := currency,
            type := TxType.SELL, amount := |t.currency_amount|, price := 1,
            pln_rate := pln_rate, nominal_price := 1, total_pln := total_pln,
            fee := 0, comment := "ID:" ++ t.id }
        pure (asset_tx, currency_tx)
  pure (if currency = Currency.PLN then [pair.1] else [pair.1, pair.2])

/-- C4/C5 concrete record: a deposit of 10 units of the settlement currency. -/
def depositEx : XtbTx :=
  .depositWithdraw { id := "7", type := .DEPOSIT, time := 0, currency_amount := 10 }

/-- C6 concrete record: an interest row with empty symbol and negative
cash amount. -/
def dividendNegEx : XtbDividendInterest :=
  { id := "9", time := 0, symbol := "", currency_amount := -2 }

/-- Expected (currency, pln_rate) pair of the asset leg per source
variant, read off the record literals in `convert_xtb_tx`; used to state
the amended two-leg claim. -/
def assetLegCurrencyRate : XtbTx → Currency → ℚ → Currency × ℚ
  | .buySell _, c, rate => (c, rate)
  | .depositWithdraw _, _, _ => (Currency.PLN, 1)
  | .dividendInterest _, c, rate => (c, rate)
  | .costs _, _, rate => (Currency.PLN, rate)

/-- Ledger rows produced for `depositEx` on a USD account at rate 4. -/
def depositLegsUSD : List InwestomatTx :=
  [{ date := 0, ticker := "Gotówka", currency := Currency.PLN,
     type := TxType.DEPOSIT, amount := 1, price := 1, pln_rate := 1,
     nominal_price := 1, total_pln := 40, fee := 0, comment := "ID:7" },
   { date := 0, ticker := "Waluty_USD", currency := Currency.USD,
     type := TxType.BUY, amount := 10, price := 1, pln_rate := 4,
     nominal_price := 1, total_pln := 40, fee := 0, comment := "ID:7" }]

/-- Ledger rows produced for `dividendNegEx` on a PLN account at rate 3. -/
def dividendNegLegs : List InwestomatTx :=
  [{ date := 0, ticker := "Gotówka", currency := Currency.PLN,
     type := TxType.DIVIDEND_INTEREST, amount := 1, price := 1,
     pln_rate := 3, nominal_price := 1, total_pln := 6, fee := 0,
     comment := "ID:9" }]

/-- Numeric value of a decimal digit character. -/
def charVal (c : Char) : ℕ := c.toNat - 48

/-- Value of a big-endian base-10 digit list. -/
def fromDigitsBE (ds : List ℕ) : ℕ := Nat.ofDigits 10 ds.reverse

/-- Greedy match of the regex fragment \d+(\.\d+)? at the head of a
character list, returning the matched number's exact value and the rest
of the input; fails when no digit is present.  When a dot is not followed
by a digit the optional fraction group matches nothing, exactly as for
the backtracking regex. -/
def takeNumber (l : List Char) : Option (ℚ × List Char) :=
  let ds := l.takeWhile Char.isDigit
  if ds = [] then none
  else
    let rest := l.drop ds.length
    let intVal : ℚ := (fromDigitsBE (ds.map charVal) : ℕ)
    match rest with
    | '.' :: r2 =>
      let fs := r2.takeWhile Char.isDigit
      if fs = [] then some (intVal, rest)
      else
        some (intVal + (fromDigitsBE (fs.map charVal) : ℕ) / 10 ^ fs.length,
          r2.drop fs.length)
    | _ => some (intVal, rest)

/-- Literal matcher: consumes an exact character sequence or fails. -/
def stripLit (pat l : List Char) : Option (List Char) :=
  if pat.isPrefixOf l then some (l.drop pat.length) else none

/-- Full match of `XTB_BUY_SELL_COMMENT_REGEX` against a trade comment:
(OPEN|CLOSE) BUY asset_amount[/total_ordered] @ price, returning the
captured `asset_amount` and `price` group values. -/
def parseXtbComment (s : String) : Option (ℚ × ℚ) :=
  let l := s.data
  let afterPre :=
    match stripLit "OPEN BUY ".data l with
    | some r => some r
    | none => stripLit "CLOSE BUY ".data l
  match afterPre with
  | none => none
  | some r1 =>
    match takeNumber r1 with
    | none => none
    | some (asset_amount, r2) =>
      let r3 :=
        match r2 with
        | '/' :: rr =>
          match takeNumber rr with
          | some (_, rr2) => some rr2
          | none => none
        | _ => some r2
      match r3 with
      | none => none
      | some r4 =>
        match stripLit " @ ".data r4 with
        | none => none
        | some r5 =>
          match takeNumber r5 with
          | none => none
          | some (price, r6) => if r6 = [] then some (asset_amount, price) else none

/-- Parsed CSV row of an Exchange-B export, as the dict handed to the
match statement in `read_xtb_transactions`.  The `Time` and `Amount`
cells are carried already parsed (timestamp and exact decimal value);
their textual parsing is file-reading mechanics outside the rules. -/
structure XtbRow where
  id : String
  type : String
  time : DateTime
  symbol : String
  comment : String
  amount : ℚ
deriving DecidableEq, Repr, Inhabited

/-- Per-row body of `read_xtb_transactions`: dispatches on the row's type
label, infers BUY/SELL and WITHDRAW/DEPOSIT from the sign of the cash
amount, requires a regex-matching comment on trade rows, and raises
`NotImplementedError` (embedded as `Except.error`) on an unrecognized
label. -/
def read_xtb_row (r : XtbRow) : Except String XtbTx :=
  let currency_amount := r.amount
  if r.type = "Sprzedaż akcji/ETF" ∨ r.type = "Zakup akcji/ETF" then
    match parseXtbComment r.comment with
    | none => .error "Komentarz nie został rozpoznany"
    | some (asset_amount, price) =>
      .ok (.buySell
        { id := r.id
          type := if currency_amount < 0 then .BUY else .SELL
          time := r.time
          symbol := r.symbol
          asset_amount := asset_amount
          price := price
          currency_amount := currency_amount })
  else if r.type = "Wpłata" ∨ r.type = "Wypłata" then
    .ok (.depositWithdraw
      { id := r.id
        type := if currency_amount < 0 then .WITHDRAW else .DEPOSIT
        time := r.time
        currency_amount := currency_amount })
  else if r.type = "Dywidenda" ∨ r.type = "Odsetki od wolnych środków" then
    .ok (.dividendInterest
      { id := r.id, time := r.time, symbol := r.symbol,
        currency_amount := currency_amount })
  else if r.type = "Podatek od dywidend"
      ∨ r.type = "Podatek od odsetek od wolnych środków" then
    .ok (.costs
      { id := r.id, time := r.time, symbol := r.symbol,
        currency_amount := currency_amount })
  else .error ("Nieznany typ transakcji: " ++ r.type)

/-- Rate resolution (`get_pln_rate`): exactly 1 for the domestic currency,
otherwise the national daily-rate service's answer for the record's date,
embedded as the injected lookup `lookupRate`. -/
def get_pln_rate (lookupRate : Currency → Int → ℚ) (currency : Currency)
    (date : Int) : ℚ :=
  if currency = Currency.PLN then 1 else lookupRate currency date

/-- Calendar day of a timestamp under the broker's fixed UTC+2 offset
(the `tx.time.date()` call in `convert_xtb`). -/
def dateOf (t : DateTime) : Int := (t + 7200).fdiv 86400

/-- One pull of the lazy `convert_xtb` pipeline: read a source row, then
convert it with the rate resolved for the row's date.  An error from
either stage aborts the run. -/
def process_xtb_row (lookupRate : Currency → Int → ℚ) (currency : Currency)
    (r : XtbRow) : Except String (List InwestomatTx) := do
  let tx ← read_xtb_row r
  convert_xtb_tx tx currency (get_pln_rate lookupRate currency (dateOf tx.time))

/-- Whole `convert_xtb` run over a source file's rows, with the writer's
laziness made explicit: each successfully converted row's ledger records
are already written to the output (first component) before the next row
is pulled; the first failing row aborts the run, leaving the earlier
output in place and reporting the error (second component). -/
def convert_xtb_run (lookupRate : Currency → Int → ℚ) (currency : Currency) :
    List XtbRow → List InwestomatTx × Option String
  | [] => ([], none)
  | r :: rs =>
    match process_xtb_row lookupRate currency r with
    | .error e => ([], some e)
    | .ok legs =>
      let rest := convert_xtb_run lookupRate currency rs
      (legs ++ rest.1, rest.2)

/-- Ledger records of one successfully converted row (empty for a failing
row); used to state what an aborted run has already written. -/
def rowLegs (lookupRate : Currency → Int → ℚ) (currency : Currency)
    (r : XtbRow) : List InwestomatTx :=
  match process_xtb_row lookupRate currency r with
  | .ok legs => legs
  | .error _ => []

/-- C7 concrete rows: a valid deposit row followed by a row with an
unrecognized type label. -/
def rowDeposit : XtbRow :=
  { id := "1", type := "Wpłata", time := 0, symbol := "", comment := "",
    amount := 2000 }

/-- C7 failing row: its type label matches no recognized Exchange-B label. -/
def rowUnknown : XtbRow :=
  { id := "2", type := "Niespodzianka", time := 0, symbol := "", comment := "",
    amount := 1 }

/-- C10 concrete row: a trade row whose cash amount is exactly zero. -/
def rowTradeZero : XtbRow :=
  { id := "3", type := "Zakup akcji/ETF", time := 0, symbol := "CDR.PL",
    comment := "OPEN BUY 1 @ 2", amount := 0 }

/-- Ledger rows of `rowDeposit` on a PLN account. -/
def depositLegsPLN : List InwestomatTx :=
  [{ date := 0, ticker := "Gotówka", currency := Currency.PLN,
     type := TxType.DEPOSIT, amount := 1, price := 1, pln_rate := 1,
     nominal_price := 1, total_pln := 2000, fee := 0, comment := "ID:1" }]

/-- Finite Python `Decimal` with integer coefficient `c` (sign included)
and exponent `e`; its numeric value is `c * 10 ^ e`.  This refined model
is needed for the writer's `_format_number`, whose `Decimal.normalize`
call rounds to the default context precision of 28 significant digits. -/
structure PyDecimal where
  c : Int
  e : Int
deriving DecidableEq, Repr

/-- Numeric value of a finite Python `Decimal`. -/
def PyDecimal.val (d : PyDecimal) : ℚ := (d.c : ℚ) * 10 ^ d.e

/-- Count of base-10 digits of a natural number (1 for 0), matching the
length of a `Decimal` coefficient's digit tuple. -/
def numDigits (n : ℕ) : ℕ :=
  if n < 10 then 1 else numDigits (n / 10) + 1
termination_by n
decreasing_by exact Nat.div_lt_self (by omega) (by norm_num)

/-- Division rounding to the nearest quotient with ties to even, the
default `ROUND_HALF_EVEN` of the `decimal` context. -/
def roundHalfEvenDiv (n d : ℕ) : ℕ :=
  let q := n / d
  let r := n % d
  if 2 * r < d then q
  else if d < 2 * r then q + 1
  else if q % 2 = 0 then q else q + 1

/-- Rounding of a coefficient to the context precision of 28 significant
digits (the `decimal` default), as applied by `Decimal.normalize`; the
exponent grows by the number of digits dropped.  A carry that lengthens
the rounded coefficient to 29 digits (all-nines case) is left to the
subsequent trailing-zero stripping, which yields the same final value
and stripped form as Python's renormalization. -/
def roundToContextPrec (n : ℕ) (e : Int) : ℕ × Int :=
  if numDigits n ≤ 28 then (n, e)
  else
    let shift := numDigits n - 28
    (roundHalfEvenDiv n (10 ^ shift), e + shift)

/-- Stripping of trailing zero digits from a coefficient into the
exponent, the defining step of `Decimal.normalize`. -/
def stripZerosNat (n : ℕ) (e : Int) : ℕ × Int :=
  if h : n ≠ 0 ∧ n % 10 = 0 then stripZerosNat (n / 10) (e + 1) else (n, e)
termination_by n
decreasing_by exact Nat.div_lt_self (Nat.pos_of_ne_zero h.1) (by norm_num)

/-- Python `Decimal.normalize()` under the default context: a zero
becomes `0E+0`; otherwise the coefficient is rounded to the 28-digit
context precision (ties to even) and its trailing zeros are stripped
into the exponent, preserving the sign. -/
def normalize (d : PyDecimal) : PyDecimal :=
  if d.c = 0 then ⟨0, 0⟩
  else
    let rounded := roundToContextPrec d.c.natAbs d.e
    let stripped := stripZerosNat rounded.1 rounded.2
    ⟨if d.c < 0 then -(stripped.1 : Int) else (stripped.1 : Int), stripped.2⟩

/-- Decimal digit character of a digit value. -/
def digitChar (d : ℕ) : Char := Char.ofNat (48 + d)

/-- Big-endian base-10 digit list of a natural number ([0] for 0). -/
def digitsBE (n : ℕ) : List ℕ :=
  if n = 0 then [0] else (Nat.digits 10 n).reverse

/-- Fixed-point rendering (`format(num, "f")`) of an unsigned coefficient
and exponent, with the decimal separator already replaced by the comma
that `_format_number` substitutes: for a nonnegative exponent the digits
are padded with that many zeros; for a negative exponent `k` the digit
string is left-padded with zeros to at least `k+1` digits and the last
`k` digits become the fractional part. -/
def renderMag (n : ℕ) (e : Int) : List Char :=
  if 0 ≤ e then (digitsBE n).map digitChar ++ List.replicate e.toNat '0'
  else
    let k := (-e).toNat
    let ds0 := digitsBE n
    let ds := List.replicate (k + 1 - ds0.length) 0 ++ ds0
    (ds.take (ds.length - k)).map digitChar
      ++ ',' :: (ds.drop (ds.length - k)).map digitChar

/-- Character rendering of a signed `Decimal` in minimal-exponent fixed
point with comma separator. -/
def renderChars (d : PyDecimal) : List Char :=
  (if d.c < 0 then ['-'] else []) ++ renderMag d.c.natAbs d.e

/-- Ledger number formatter `_format_number`: normalize, render in fixed
point, comma for the decimal separator. -/
def _format_number (d : PyDecimal) : String :=
  ⟨renderChars (normalize d)⟩

/-- Numeric value of an unsigned decimal digit string with the comma as
radix point (the composition of mapping the comma back to a period with
the `Decimal` constructor's digit parsing). -/
def parseUnsignedChars (l : List Char) : Option ℚ :=
  let intCs := l.takeWhile (fun c => c != ',')
  let rest := l.dropWhile (fun c => c != ',')
  match rest with
  | [] =>
    if intCs ≠ [] ∧ intCs.all Char.isDigit then
      some ((fromDigitsBE (intCs.map charVal) : ℕ) : ℚ)
    else none
  | _ :: fracCs =>
    if intCs.all Char.isDigit ∧ fracCs.all Char.isDigit
        ∧ (intCs ≠ [] ∨ fracCs ≠ []) then
      some ((fromDigitsBE (intCs.map charVal) : ℕ)
        + (fromDigitsBE (fracCs.map charVal) : ℕ) / 10 ^ fracCs.length)
    else none

/-- Re-parsing of a rendered ledger number: optional leading minus sign,
then an unsigned decimal string with comma radix point. -/
def parseDecimalString (s : String) : Option ℚ :=
  match s.data with
  | [] => none
  | ch :: rest =>
    if ch = '-' then (parseUnsignedChars rest).map Neg.neg
    else parseUnsignedChars (ch :: rest)

/-- C9 counterexample input: a 29-significant-digit value, one digit above
the context precision. -/
def decC9 : PyDecimal := ⟨12345678901234567890123456789, 0⟩

/-- C1 (counterexample): with the price mapping resolved by `find_pln_prices`
from the record's unit price, a record whose `total` field breaks the
exchange invariant `total = amount × price` yields two legs with different
`total_pln` values (2 on the SELL leg, 1 on the BUY leg). -/
theorem binance_value_conservation_cex :
    ¬ (((split_binance_tx_to_inwestomat_txs btxC1
          (find_pln_prices (fun _ => 1) btxC1.market btxC1.price))[0]!).total_pln
      = ((split_binance_tx_to_inwestomat_txs btxC1
          (find_pln_prices (fun _ => 1) btxC1.market btxC1.price))[1]!).total_pln) :=
  of_decide_eq_true (by with_unfolding_all rfl)

/-- C1 (amended): for every Exchange-A BUY/SELL record whose market pair
has two distinct tickers and which satisfies the source-exchange export
invariant `total = amount × price`, the two legs emitted by
`split_binance_tx_to_inwestomat_txs` under the price mapping resolved by
`find_pln_prices` from the record's unit price carry numerically equal
`total_pln` values. -/
theorem binance_value_conservation (g : Market → ℚ) (btx : BinanceTx)
    (hmk : btx.market.1 ≠ btx.market.2)
    (hinv : btx.total = btx.amount * btx.price) :
    (((split_binance_tx_to_inwestomat_txs btx
        (find_pln_prices g btx.market btx.price))[0]!).total_pln
    = ((split_binance_tx_to_inwestomat_txs btx
        (find_pln_prices g btx.market btx.price))[1]!).total_pln) := by
  obtain ⟨d, ⟨b, q⟩, ty, a, p, t, f, fc⟩ := btx
  simp only at hmk hinv
  cases ty <;>
    simp [split_binance_tx_to_inwestomat_txs, find_pln_prices, hmk, hinv,
      Ne.symm hmk] <;>
    ring

/-- C1 witness: the amended theorem applied to the C2 example record, whose
fields do satisfy the export invariant. -/
theorem binance_value_conservation_witness :
    (((split_binance_tx_to_inwestomat_txs btxC2
        (find_pln_prices (fun _ => 233158) btxC2.market btxC2.price))[0]!).total_pln
    = ((split_binance_tx_to_inwestomat_txs btxC2
        (find_pln_prices (fun _ => 233158) btxC2.market btxC2.price))[1]!).total_pln) :=
  binance_value_conservation (fun _ => 233158) btxC2
    (by simp [btxC2])
    (by norm_num [btxC2])

/-- C2: on the spec's example input (BUY of 24 units, market (ADA, BTC),
total 0.0001728, fee 0.024 in ADA, resolved prices ADA ↦ 1.8584496 and
BTC ↦ 258118) the splitter returns exactly the SELL leg followed by the
BUY leg, both carrying the source timestamp, with the listed amounts,
prices, totals and fees. -/
theorem binance_split_example :
    split_binance_tx_to_inwestomat_txs btxC2 plnPricesC2 =
      [{ date := btxC2.date
         ticker := "CURRENCY:BTCPLN"
         currency := Currency.PLN
         type := TxType.SELL
         amount := 0.0001728
         price := 258118
         pln_rate := 1
         nominal_price := 1
         total_pln := 44.6027904
         fee := 0 },
       { date := btxC2.date
         ticker := "CURRENCY:ADAPLN"
         currency := Currency.PLN
         type := TxType.BUY
         amount := 23.976
         price := 1.8584496
         pln_rate := 1
         nominal_price := 1
         total_pln := 44.6027904
         fee := 0.0446027904 }] := by
  simp [split_binance_tx_to_inwestomat_txs, btxC2, plnPricesC2,
    format_cryptocurrency_ticker]
  norm_num

/-- C3: for every Exchange-A record and price mapping, the SELL leg's fee
is zero and its amount is the raw give-side amount; when the fee coin
equals the take-side (bought) ticker, the BUY leg's amount is the raw
take-side amount minus the fee and its fee is the fee amount times the
take-side ticker's resolved price; in every other case the BUY leg's
amount is unadjusted and both fees are zero. -/
theorem binance_fee_rule (btx : BinanceTx) (pm : Ticker → ℚ) :
    (((split_binance_tx_to_inwestomat_txs btx pm)[0]!).fee = 0
    ∧ ((split_binance_tx_to_inwestomat_txs btx pm)[0]!).amount = rawGiveAmount btx)
    ∧ (btx.fee_coin = takeTicker btx →
        ((split_binance_tx_to_inwestomat_txs btx pm)[1]!).amount
          = rawTakeAmount btx - btx.fee
        ∧ ((split_binance_tx_to_inwestomat_txs btx pm)[1]!).fee
          = btx.fee * pm (takeTicker btx))
    ∧ (btx.fee_coin ≠ takeTicker btx →
        ((split_binance_tx_to_inwestomat_txs btx pm)[1]!).amount = rawTakeAmount btx
        ∧ ((split_binance_tx_to_inwestomat_txs btx pm)[1]!).fee = 0) := by
  obtain ⟨d, ⟨b, q⟩, ty, a, p, t, f, fc⟩ := btx
  cases ty <;>
    constructor <;>
    [skip; constructor; skip; constructor] <;>
    intros <;>
    simp_all [split_binance_tx_to_inwestomat_txs, takeTicker, rawTakeAmount,
      rawGiveAmount]

/-- C3 witness: on the C2 example record, whose fee coin ADA is the bought
ticker, the BUY leg's amount is 24 − 0.024 and its fee is
0.024 × 1.8584496. -/
theorem binance_fee_rule_witness :
    ((split_binance_tx_to_inwestomat_txs btxC2 plnPricesC2)[1]!).amount
      = rawTakeAmount btxC2 - btxC2.fee
    ∧ ((split_binance_tx_to_inwestomat_txs btxC2 plnPricesC2)[1]!).fee
      = btxC2.fee * plnPricesC2 (takeTicker btxC2) :=
  (binance_fee_rule btxC2 plnPricesC2).2.1 (of_decide_eq_true (by with_unfolding_all rfl))

/-- C4: whenever `convert_xtb_tx` returns a record list, that list has
exactly one element when the settlement currency is the domestic currency
PLN and exactly two elements otherwise, for every source record variant,
settlement currency and resolved rate. -/
theorem xtb_record_count (tx : XtbTx) (c : Currency) (rate : ℚ)
    (l : List InwestomatTx) (h : convert_xtb_tx tx c rate = .ok l) :
    l.length = if c = Currency.PLN then 1 else 2 := by
  cases tx with
  | buySell t =>
    cases htk : convert_xtb_ticker t.symbol with
    | error e => simp [convert_xtb_tx, htk, pure, Except.pure, bind, Except.bind] at h
    | ok tk =>
      simp [convert_xtb_tx, htk, pure, Except.pure, bind, Except.bind] at h
      subst h
      split <;> simp
  | depositWithdraw t =>
    simp [convert_xtb_tx, pure, Except.pure, bind, Except.bind] at h
    subst h
    split <;> simp
  | dividendInterest t =>
    by_cases hs : t.symbol = ""
    · simp [convert_xtb_tx, hs, pure, Except.pure, bind, Except.bind] at h
      subst h
      split <;> simp
    · cases htk : convert_xtb_ticker t.symbol with
      | error e => simp [convert_xtb_tx, hs, htk, pure, Except.pure, bind, Except.bind] at h
      | ok tk =>
        simp [convert_xtb_tx, hs, htk, pure, Except.pure, bind, Except.bind] at h
        subst h
        split <;> simp
  | costs t =>
    by_cases hs : t.symbol = ""
    · simp [convert_xtb_tx, hs, pure, Except.pure, bind, Except.bind] at h
      subst h
      split <;> simp
    · cases htk : convert_xtb_ticker t.symbol with
      | error e => simp [convert_xtb_tx, hs, htk, pure, Except.pure, bind, Except.bind] at h
      | ok tk =>
        simp [convert_xtb_tx, hs, htk, pure, Except.pure, bind, Except.bind] at h
        subst h
        split <;> simp

/-- C4 witness: the deposit example converted for a USD account yields a
list whose length matches the non-domestic branch. -/
theorem xtb_record_count_witness :
    ([{ date := 0, ticker := "Gotówka", currency := Currency.PLN,
        type := TxType.DEPOSIT, amount := 1, price := 1, pln_rate := 1,
        nominal_price := 1, total_pln := 40, fee := 0, comment := "ID:7" },
      { date := 0, ticker := "Waluty_USD", currency := Currency.USD,
        type := TxType.BUY, amount := 10, price := 1, pln_rate := 4,
        nominal_price := 1, total_pln := 40, fee := 0, comment := "ID:7" }]
      : List InwestomatTx).length
    = if Currency.USD = Currency.PLN then 1 else 2 :=
  xtb_record_count depositEx Currency.USD 4 _
    (by
      simp [convert_xtb_tx, depositEx, pure, Except.pure, bind, Except.bind,
        Currency.ticker, Currency.value, XtbTx.currency_amount,
        DepositOrWithdraw.toTxType]
      norm_num)

/-- C5 (counterexample): converting a plain deposit for a USD account with
rate 4 emits an asset leg denominated in PLN with rate 1 — not in the
settlement currency USD with the resolved rate — refuting the claim that
both emitted records are denominated in the settlement currency and carry
the resolved rate. -/
theorem xtb_nondomestic_legs_cex :
    convert_xtb_tx depositEx Currency.USD 4 =
      .ok [{ date := 0, ticker := "Gotówka", currency := Currency.PLN,
             type := TxType.DEPOSIT, amount := 1, price := 1, pln_rate := 1,
             nominal_price := 1, total_pln := 40, fee := 0, comment := "ID:7" },
           { date := 0, ticker := "Waluty_USD", currency := Currency.USD,
             type := TxType.BUY, amount := 10, price := 1, pln_rate := 4,
             nominal_price := 1, total_pln := 40, fee := 0, comment := "ID:7" }]
    ∧ Currency.PLN ≠ Currency.USD ∧ (1 : ℚ) ≠ 4 := by
  refine ⟨?_, by decide, by norm_num⟩
  simp [convert_xtb_tx, depositEx, pure, Except.pure, bind, Except.bind,
    Currency.ticker, Currency.value, XtbTx.currency_amount,
    DepositOrWithdraw.toTxType]
  norm_num

/-- C5 (amended): when the settlement currency is not PLN, `convert_xtb_tx`
emits exactly two records that share the computed domestic total
|cash| × rate; the mirrored currency leg is always denominated in the
settlement currency and carries the resolved rate, and the asset leg is
too for the BuySell and DividendInterest variants, while for
DepositWithdraw the asset leg is denominated in PLN with rate 1 and for
Costs it is denominated in PLN with the resolved rate. -/
theorem xtb_nondomestic_legs (tx : XtbTx) (c : Currency) (rate : ℚ)
    (l : List InwestomatTx) (hc : c ≠ Currency.PLN)
    (h : convert_xtb_tx tx c rate = .ok l) :
    l.length = 2
    ∧ (l[1]!).currency = c ∧ (l[1]!).pln_rate = rate
    ∧ (l[0]!).total_pln = |tx.currency_amount| * rate
    ∧ (l[1]!).total_pln = |tx.currency_amount| * rate
    ∧ ((l[0]!).currency, (l[0]!).pln_rate) = assetLegCurrencyRate tx c rate := by
  cases tx with
  | buySell t =>
    cases htk : convert_xtb_ticker t.symbol with
    | error e => simp [convert_xtb_tx, htk, pure, Except.pure, bind, Except.bind] at h
    | ok tk =>
      simp [convert_xtb_tx, htk, hc, pure, Except.pure, bind, Except.bind] at h
      subst h
      simp [XtbTx.currency_amount, assetLegCurrencyRate]
  | depositWithdraw t =>
    simp [convert_xtb_tx, hc, pure, Except.pure, bind, Except.bind] at h
    subst h
    simp [XtbTx.currency_amount, assetLegCurrencyRate]
  | dividendInterest t =>
    by_cases hs : t.symbol = ""
    · simp [convert_xtb_tx, hs, hc, pure, Except.pure, bind, Except.bind] at h
      subst h
      simp [XtbTx.currency_amount, assetLegCurrencyRate]
    · cases htk : convert_xtb_ticker t.symbol with
      | error e => simp [convert_xtb_tx, hs, htk, pure, Except.pure, bind, Except.bind] at h
      | ok tk =>
        simp [convert_xtb_tx, hs, htk, hc, pure, Except.pure, bind, Except.bind] at h
        subst h
        simp [XtbTx.currency_amount, assetLegCurrencyRate]
  | costs t =>
    by_cases hs : t.symbol = ""
    · simp [convert_xtb_tx, hs, hc, pure, Except.pure, bind, Except.bind] at h
      subst h
      simp [XtbTx.currency_amount, assetLegCurrencyRate]
    · cases htk : convert_xtb_ticker t.symbol with
      | error e => simp [convert_xtb_tx, hs, htk, pure, Except.pure, bind, Except.bind] at h
      | ok tk =>
        simp [convert_xtb_tx, hs, htk, hc, pure, Except.pure, bind, Except.bind] at h
        subst h
        simp [XtbTx.currency_amount, assetLegCurrencyRate]

/-- C5 witness: the amended theorem applied to the USD deposit example. -/
theorem xtb_nondomestic_legs_witness :
    (depositLegsUSD.length = 2)
    ∧ (depositLegsUSD[1]!).currency = Currency.USD
    ∧ (depositLegsUSD[1]!).pln_rate = 4
    ∧ (depositLegsUSD[0]!).total_pln = |depositEx.currency_amount| * 4
    ∧ (depositLegsUSD[1]!).total_pln = |depositEx.currency_amount| * 4
    ∧ ((depositLegsUSD[0]!).currency, (depositLegsUSD[0]!).pln_rate)
        = assetLegCurrencyRate depositEx Currency.USD 4 :=
  xtb_nondomestic_legs depositEx Currency.USD 4 depositLegsUSD (by decide)
    (by
      simp [convert_xtb_tx, depositEx, depositLegsUSD, pure, Except.pure, bind,
        Except.bind, Currency.ticker, Currency.value, XtbTx.currency_amount,
        DepositOrWithdraw.toTxType]
      norm_num)

/-- C6 (counterexample): an interest record with empty symbol and cash
amount −2 converted at rate 3 gets total_pln 6 = |−2| × 3, not the signed
value −2 × 3 = −6 the claim requires. -/
theorem xtb_dividend_leg_cex :
    convert_xtb_tx (.dividendInterest dividendNegEx) Currency.PLN 3 =
      .ok [{ date := 0, ticker := "Gotówka", currency := Currency.PLN,
             type := TxType.DIVIDEND_INTEREST, amount := 1, price := 1,
             pln_rate := 3, nominal_price := 1, total_pln := 6, fee := 0,
             comment := "ID:9" }]
    ∧ (6 : ℚ) ≠ dividendNegEx.currency_amount * 3 := by
  constructor
  · simp [convert_xtb_tx, dividendNegEx, pure, Except.pure, bind, Except.bind,
      Currency.ticker, Currency.value, XtbTx.currency_amount]
    norm_num
  · simp [dividendNegEx]
    norm_num

/-- C6 (amended): for every Exchange-B DividendInterest record (symbol
present or empty), settlement currency and resolved rate, the asset/cash
leg emitted by `convert_xtb_tx` has amount 1, unit price 1, type
DIVIDEND_INTEREST, and total_pln equal to the absolute cash amount times
the rate (the signed value only when the cash amount is nonnegative). -/
theorem xtb_dividend_leg (t : XtbDividendInterest) (c : Currency) (rate : ℚ)
    (l : List InwestomatTx)
    (h : convert_xtb_tx (.dividendInterest t) c rate = .ok l) :
    (l[0]!).amount = 1 ∧ (l[0]!).price = 1
    ∧ (l[0]!).type = TxType.DIVIDEND_INTEREST
    ∧ (l[0]!).total_pln = |t.currency_amount| * rate := by
  by_cases hs : t.symbol = ""
  · simp [convert_xtb_tx, hs, pure, Except.pure, bind, Except.bind] at h
    subst h
    split <;> simp [XtbTx.currency_amount]
  · cases htk : convert_xtb_ticker t.symbol with
    | error e => simp [convert_xtb_tx, hs, htk, pure, Except.pure, bind, Except.bind] at h
    | ok tk =>
      simp [convert_xtb_tx, hs, htk, pure, Except.pure, bind, Except.bind] at h
      subst h
      split <;> simp [XtbTx.currency_amount]

/-- C6 witness: the amended theorem applied to the negative-interest
example converted for a PLN account at rate 3. -/
theorem xtb_dividend_leg_witness :
    (dividendNegLegs[0]!).amount = 1 ∧ (dividendNegLegs[0]!).price = 1
    ∧ (dividendNegLegs[0]!).type = TxType.DIVIDEND_INTEREST
    ∧ (dividendNegLegs[0]!).total_pln = |dividendNegEx.currency_amount| * 3 :=
  xtb_dividend_leg dividendNegEx Currency.PLN 3 dividendNegLegs
    (by
      simp [convert_xtb_tx, dividendNegEx, dividendNegLegs, pure, Except.pure,
        bind, Except.bind, Currency.ticker, Currency.value,
        XtbTx.currency_amount]
      norm_num)

/-- Splitting lemma for `partitionChars`: when the prefix holds no
separator, the first separator is the explicit one. -/
theorem partitionChars_append (code country : List Char) (h : '.' ∉ code) :
    partitionChars '.' (code ++ '.' :: country) = (code, true, country) := by
  induction code with
  | nil => simp [partitionChars]
  | cons c cs ih =>
    simp only [List.mem_cons, not_or] at h
    have hc : ¬ (c = '.') := fun hh => h.1 hh.symm
    simp [partitionChars, hc, ih h.2]

/-- C8: for every symbol of the form code.country (first dot separating a
dot-free code from the country), `convert_xtb_ticker` maps country PL to
WSE:code and country UK to LON:code, and raises a hard `ValueError` for
every other country instead of returning a default ticker. -/
theorem xtb_ticker_rule (code country : List Char) (hcode : '.' ∉ code) :
    (country = "PL".data →
      convert_xtb_ticker ⟨code ++ '.' :: country⟩ = .ok ("WSE:" ++ ⟨code⟩))
    ∧ (country = "UK".data →
      convert_xtb_ticker ⟨code ++ '.' :: country⟩ = .ok ("LON:" ++ ⟨code⟩))
    ∧ (country ≠ "PL".data → country ≠ "UK".data →
      convert_xtb_ticker ⟨code ++ '.' :: country⟩ =
        .error ("Nieznany kraj " ++ (⟨country⟩ : String) ++ " w tickerze "
          ++ (⟨code ++ '.' :: country⟩ : String))) := by
  refine ⟨?_, ?_, ?_⟩ <;>
    simp [convert_xtb_ticker, partitionChars_append code country hcode,
      String.ext_iff] <;>
    intros <;>
    simp_all

/-- C8 witness: the rule applied to the symbols ABC.PL, DTLA.UK and the
unknown-country symbol ABC.US. -/
theorem xtb_ticker_rule_witness :
    convert_xtb_ticker ⟨"ABC".data ++ '.' :: "PL".data⟩ = .ok ("WSE:" ++ ⟨"ABC".data⟩)
    ∧ convert_xtb_ticker ⟨"DTLA".data ++ '.' :: "UK".data⟩
        = .ok ("LON:" ++ ⟨"DTLA".data⟩)
    ∧ convert_xtb_ticker ⟨"ABC".data ++ '.' :: "US".data⟩ =
        .error ("Nieznany kraj " ++ (⟨"US".data⟩ : String) ++ " w tickerze "
          ++ (⟨"ABC".data ++ '.' :: "US".data⟩ : String)) :=
  ⟨(xtb_ticker_rule "ABC".data "PL".data (by decide)).1 rfl,
   (xtb_ticker_rule "DTLA".data "UK".data (by decide)).2.1 rfl,
   (xtb_ticker_rule "ABC".data "US".data (by decide)).2.2 (by decide) (by decide)⟩

/-- C7 (counterexample): a run over a valid deposit row followed by a row
with an unrecognized type label aborts with the unknown-label error, yet
the deposit's ledger row has already been written — refuting the claim
that an aborting run writes no ledger rows. -/
theorem xtb_run_abort_cex :
    (convert_xtb_run (fun _ _ => 1) Currency.PLN [rowDeposit, rowUnknown]).2
        = some "Nieznany typ transakcji: Niespodzianka"
    ∧ (convert_xtb_run (fun _ _ => 1) Currency.PLN [rowDeposit, rowUnknown]).1
        = depositLegsPLN
    ∧ depositLegsPLN ≠ [] :=
  ⟨by with_unfolding_all rfl, by with_unfolding_all rfl, by simp [depositLegsPLN]⟩

/-- C7 (amended): every Exchange-B conversion run containing a
hard-erroring record aborts at the first such record: nothing at or after
it is converted or written, and the output consists of exactly the ledger
rows of the records before it — which may be a nonempty partial ledger,
since the pipeline writes each record's rows as it is converted. -/
theorem xtb_run_aborts_at_first_error (g : Currency → Int → ℚ) (c : Currency)
    (pre : List XtbRow) (r0 : XtbRow) (rest : List XtbRow) (e : String)
    (hpre : ∀ r ∈ pre, ∃ legs, process_xtb_row g c r = .ok legs)
    (hbad : process_xtb_row g c r0 = .error e) :
    convert_xtb_run g c (pre ++ r0 :: rest)
      = ((pre.map (rowLegs g c)).flatten, some e) := by
  induction pre with
  | nil => simp [convert_xtb_run, hbad]
  | cons r rs ih =>
    obtain ⟨legs, hr⟩ := hpre r (List.mem_cons_self r rs)
    simp [convert_xtb_run, hr, rowLegs,
      ih (fun x hx => hpre x (List.mem_cons_of_mem r hx))]

/-- C7 witness: the amended theorem applied to the deposit row followed by
the unknown-label row. -/
theorem xtb_run_aborts_witness :
    convert_xtb_run (fun _ _ => 1) Currency.PLN [rowDeposit, rowUnknown]
      = (([rowDeposit].map (rowLegs (fun _ _ => 1) Currency.PLN)).flatten,
         some ("Nieznany typ transakcji: " ++ rowUnknown.type)) :=
  xtb_run_aborts_at_first_error (fun _ _ => 1) Currency.PLN
    [rowDeposit] rowUnknown [] ("Nieznany typ transakcji: " ++ rowUnknown.type)
    (by
      intro r hr
      simp only [List.mem_singleton] at hr
      subst hr
      exact ⟨depositLegsPLN, by with_unfolding_all rfl⟩)
    (by with_unfolding_all rfl)

/-- C10: at the Exchange-B reading interface, a trade row parses to SELL
and a cash-movement row to DEPOSIT exactly when the cash amount is not
strictly negative — so a zero cash amount is classified as SELL resp.
DEPOSIT, and BUY resp. WITHDRAW arise only for strictly negative cash
amounts. -/
theorem xtb_sign_zero (r : XtbRow) :
    (∀ t, read_xtb_row r = .ok (.buySell t) →
      ((r.amount = 0 → t.type = .SELL) ∧ (t.type = .BUY ↔ r.amount < 0)))
    ∧ (∀ t, read_xtb_row r = .ok (.depositWithdraw t) →
      ((r.amount = 0 → t.type = .DEPOSIT)
        ∧ (t.type = .WITHDRAW ↔ r.amount < 0))) := by
  constructor
  · intro t h
    simp only [read_xtb_row] at h
    split at h
    · split at h
      · exact Except.noConfusion h
      · simp only [Except.ok.injEq, XtbTx.buySell.injEq] at h
        subst h
        constructor
        · intro h0
          simp [h0]
        · by_cases ha : r.amount < 0 <;> simp [ha]
    · split at h
      · simp at h
      · split at h
        · simp at h
        · split at h
          · simp at h
          · exact Except.noConfusion h
  · intro t h
    simp only [read_xtb_row] at h
    split at h
    · split at h
      · exact Except.noConfusion h
      · simp at h
    · split at h
      · simp only [Except.ok.injEq, XtbTx.depositWithdraw.injEq] at h
        subst h
        constructor
        · intro h0
          simp [h0]
        · by_cases ha : r.amount < 0 <;> simp [ha]
      · split at h
        · simp at h
        · split at h
          · simp at h
          · exact Except.noConfusion h

/-- C10 witness: the zero-amount trade row parses to a SELL record. -/
theorem xtb_sign_zero_witness :
    ((rowTradeZero.amount = 0 →
        (⟨"3", .SELL, 0, "CDR.PL", 1, 2, 0⟩ : XtbBuySell).type = .SELL)
      ∧ ((⟨"3", .SELL, 0, "CDR.PL", 1, 2, 0⟩ : XtbBuySell).type = .BUY
          ↔ rowTradeZero.amount < 0)) :=
  (xtb_sign_zero rowTradeZero).1 ⟨"3", .SELL, 0, "CDR.PL", 1, 2, 0⟩
    (by with_unfolding_all rfl)


theorem charVal_digitChar {d : ℕ} (h : d < 10) : charVal (digitChar d) = d := by
  interval_cases d <;> rfl

theorem isDigit_digitChar {d : ℕ} (h : d < 10) : (digitChar d).isDigit = true := by
  interval_cases d <;> decide

theorem digitChar_bne_comma {d : ℕ} (h : d < 10) : (digitChar d != ',') = true := by
  interval_cases d <;> decide

theorem digitChar_ne_minus {d : ℕ} (h : d < 10) : digitChar d ≠ '-' := by
  interval_cases d <;> decide

theorem digitsBE_lt (n : ℕ) : ∀ d ∈ digitsBE n, d < 10 := by
  intro d hd
  unfold digitsBE at hd
  split at hd
  · simp at hd
    omega
  · rw [List.mem_reverse] at hd
    exact Nat.digits_lt_base (by norm_num) hd

theorem digitsBE_ne_nil (n : ℕ) : digitsBE n ≠ [] := by
  unfold digitsBE
  split
  · simp
  · simpa using Nat.digits_ne_nil_iff_ne_zero.mpr (by assumption)

theorem fromDigitsBE_digitsBE (n : ℕ) : fromDigitsBE (digitsBE n) = n := by
  unfold digitsBE fromDigitsBE
  split
  · simp [Nat.ofDigits]
    omega
  · rw [List.reverse_reverse, Nat.ofDigits_digits]

theorem fromDigitsBE_append (a b : List ℕ) :
    fromDigitsBE (a ++ b) = fromDigitsBE a * 10 ^ b.length + fromDigitsBE b := by
  unfold fromDigitsBE
  rw [List.reverse_append, Nat.ofDigits_append]
  simp [List.length_reverse]
  ring

theorem fromDigitsBE_replicate_zero (m : ℕ) :
    fromDigitsBE (List.replicate m 0) = 0 := by
  unfold fromDigitsBE
  rw [List.reverse_replicate]
  induction m with
  | zero => rfl
  | succ k ih =>
    rw [List.replicate_succ, Nat.ofDigits_cons, ih]

theorem map_charVal_map_digitChar (ds : List ℕ) (h : ∀ d ∈ ds, d < 10) :
    (ds.map digitChar).map charVal = ds := by
  induction ds with
  | nil => rfl
  | cons d rest ih =>
    simp only [List.map_cons]
    rw [charVal_digitChar (h d (List.mem_cons_self d rest)),
      ih (fun x hx => h x (List.mem_cons_of_mem d hx))]

theorem all_isDigit_map_digitChar (ds : List ℕ) (h : ∀ d ∈ ds, d < 10) :
    (ds.map digitChar).all Char.isDigit = true := by
  rw [List.all_eq_true]
  intro c hc
  rw [List.mem_map] at hc
  obtain ⟨d, hd, rfl⟩ := hc
  exact isDigit_digitChar (h d hd)

theorem takeWhile_map_digitChar_append (a : List ℕ) (ha : ∀ d ∈ a, d < 10)
    (b : List Char) :
    (a.map digitChar ++ ',' :: b).takeWhile (fun ch => ch != ',') = a.map digitChar
    ∧ (a.map digitChar ++ ',' :: b).dropWhile (fun ch => ch != ',') = ',' :: b := by
  induction a with
  | nil => simp [List.takeWhile, List.dropWhile]
  | cons d rest ih =>
    have hd : (digitChar d != ',') = true :=
      digitChar_bne_comma (ha d (List.mem_cons_self d rest))
    have := ih (fun x hx => ha x (List.mem_cons_of_mem d hx))
    simp only [List.map_cons, List.cons_append, List.takeWhile_cons,
      List.dropWhile_cons, hd, if_true]
    simp [this.1, this.2]

theorem parseUnsigned_renderMag (n : ℕ) (e : Int) :
    parseUnsignedChars (renderMag n e) = some ((n : ℚ) * 10 ^ e) := by
  unfold renderMag
  split
  case isTrue he =>
    have h0 : (List.replicate e.toNat 0).map digitChar = List.replicate e.toNat '0' := by
      simp [List.map_replicate, show digitChar 0 = '0' from by decide]
    rw [← h0, ← List.map_append]
    set ds := digitsBE n ++ List.replicate e.toNat 0 with hds
    have hlt : ∀ d ∈ ds, d < 10 := by
      intro d hd
      rw [hds, List.mem_append] at hd
      rcases hd with hd | hd
      · exact digitsBE_lt n d hd
      · rw [List.eq_of_mem_replicate hd]
        omega
    have hnc : ∀ ch ∈ ds.map digitChar, (fun c => c != ',') ch = true := by
      intro ch hch
      rw [List.mem_map] at hch
      obtain ⟨d, hd, rfl⟩ := hch
      exact digitChar_bne_comma (hlt d hd)
    unfold parseUnsignedChars
    rw [List.takeWhile_eq_self_iff.mpr hnc, List.dropWhile_eq_nil_iff.mpr hnc]
    dsimp only
    have hne : ds.map digitChar ≠ [] := by
      rw [hds]
      simp [digitsBE_ne_nil n]
    rw [if_pos ⟨hne, all_isDigit_map_digitChar ds hlt⟩]
    rw [map_charVal_map_digitChar ds hlt]
    rw [hds, fromDigitsBE_append, fromDigitsBE_digitsBE,
      fromDigitsBE_replicate_zero, List.length_replicate]
    push_cast
    rw [show (10 : ℚ) ^ e = 10 ^ e.toNat by
      rw [← zpow_natCast]
      congr 1
      omega]
    ring_nf
  case isFalse he =>
    set k := (-e).toNat with hk
    have hk1 : 1 ≤ k := by omega
    set ds0 := digitsBE n with hds0
    set ds := List.replicate (k + 1 - ds0.length) 0 ++ ds0 with hds
    have hlen : k + 1 ≤ ds.length := by
      rw [hds]
      simp [List.length_append, List.length_replicate]
      omega
    have hlt : ∀ d ∈ ds, d < 10 := by
      intro d hd
      rw [hds, List.mem_append] at hd
      rcases hd with hd | hd
      · rw [List.eq_of_mem_replicate hd]
        omega
      · exact digitsBE_lt n d hd
    have hiPart : ∀ d ∈ ds.take (ds.length - k), d < 10 :=
      fun d hd => hlt d (List.take_subset _ _ hd)
    have hfPart : ∀ d ∈ ds.drop (ds.length - k), d < 10 :=
      fun d hd => hlt d (List.drop_subset _ _ hd)
    have hsplit := takeWhile_map_digitChar_append (ds.take (ds.length - k)) hiPart
      ((ds.drop (ds.length - k)).map digitChar)
    unfold parseUnsignedChars
    rw [hsplit.1, hsplit.2]
    dsimp only
    have hiNe : (ds.take (ds.length - k)).map digitChar ≠ [] := by
      simp only [ne_eq, List.map_eq_nil_iff, List.take_eq_nil_iff]
      push_neg
      constructor
      · omega
      · rw [hds]
        simp [digitsBE_ne_nil n]
    rw [if_pos ⟨all_isDigit_map_digitChar _ hiPart,
      all_isDigit_map_digitChar _ hfPart, Or.inl hiNe⟩]
    rw [map_charVal_map_digitChar _ hiPart, map_charVal_map_digitChar _ hfPart,
      List.length_map]
    have hfree : fromDigitsBE (ds.take (ds.length - k)) * 10 ^ k
        + fromDigitsBE (ds.drop (ds.length - k)) = n := by
      have hlenf : (ds.drop (ds.length - k)).length = k := by
        rw [List.length_drop]
        omega
      have := fromDigitsBE_append (ds.take (ds.length - k)) (ds.drop (ds.length - k))
      rw [List.take_append_drop, hlenf] at this
      rw [← this, hds, fromDigitsBE_append, fromDigitsBE_replicate_zero,
        fromDigitsBE_digitsBE]
      ring
    have hlenf : (ds.drop (ds.length - k)).length = k := by
      rw [List.length_drop]
      omega
    rw [hlenf]
    rw [show (10 : ℚ) ^ e = ((10 : ℚ) ^ k)⁻¹ by
      rw [← zpow_natCast]
      rw [← zpow_neg]
      congr 1
      omega]
    have h10 : (10 : ℚ) ^ k ≠ 0 := by positivity
    field_simp
    exact_mod_cast hfree

theorem cast_natAbs_of_neg {z : Int} (h : z < 0) : ((z.natAbs : ℚ)) = -(z : ℚ) := by
  rw [Int.cast_natAbs]
  push_cast
  rw [abs_of_neg (by exact_mod_cast h : (z : ℚ) < 0)]

theorem cast_natAbs_of_nonneg {z : Int} (h : 0 ≤ z) : ((z.natAbs : ℚ)) = (z : ℚ) := by
  rw [Int.cast_natAbs]
  push_cast
  rw [abs_of_nonneg (by exact_mod_cast h : (0 : ℚ) ≤ (z : ℚ))]

theorem renderMag_head (n : ℕ) (e : Int) :
    ∃ d rest, renderMag n e = digitChar d :: rest ∧ d < 10 := by
  unfold renderMag
  split
  case isTrue he =>
    obtain ⟨d, ds, hds⟩ : ∃ d ds, digitsBE n = d :: ds := by
      cases hh : digitsBE n with
      | nil => exact absurd hh (digitsBE_ne_nil n)
      | cons a l => exact ⟨a, l, rfl⟩
    refine ⟨d, ds.map digitChar ++ List.replicate e.toNat '0', ?_,
      digitsBE_lt n d (by rw [hds]; exact List.mem_cons_self d ds)⟩
    rw [hds]
    simp
  case isFalse he =>
    set k := (-e).toNat with hk
    set ds0 := digitsBE n with hds0
    set ds := List.replicate (k + 1 - ds0.length) 0 ++ ds0 with hds
    have hlen : k + 1 ≤ ds.length := by
      rw [hds]
      simp only [List.length_append, List.length_replicate]
      omega
    have hlt : ∀ d ∈ ds, d < 10 := by
      intro d hd
      rw [hds, List.mem_append] at hd
      rcases hd with hd | hd
      · rw [List.eq_of_mem_replicate hd]
        omega
      · exact digitsBE_lt n d hd
    obtain ⟨x, xs, hx⟩ : ∃ x xs, ds = x :: xs := by
      cases hh : ds with
      | nil =>
        rw [hds] at hh
        rcases List.append_eq_nil.mp hh with ⟨-, h2⟩
        exact absurd h2 (digitsBE_ne_nil n)
      | cons a l => exact ⟨a, l, rfl⟩
    obtain ⟨m, hm⟩ : ∃ m, ds.length - k = m + 1 := ⟨ds.length - k - 1, by omega⟩
    have htake : ds.take (ds.length - k) = x :: xs.take m := by
      rw [hm, hx, List.take_succ_cons]
    refine ⟨x, (xs.take m).map digitChar
      ++ ',' :: (ds.drop (ds.length - k)).map digitChar, ?_,
      hlt x (by rw [hx]; exact List.mem_cons_self x xs)⟩
    dsimp only
    rw [← hds, htake]
    simp

theorem parse_renderChars (d : PyDecimal) :
    parseDecimalString ⟨renderChars d⟩ = some d.val := by
  unfold parseDecimalString renderChars PyDecimal.val
  obtain ⟨dd, rest, hr, hd10⟩ := renderMag_head d.c.natAbs d.e
  by_cases hneg : d.c < 0
  · rw [if_pos hneg]
    show (match '-' :: renderMag d.c.natAbs d.e with
      | [] => none
      | ch :: rest =>
        if ch = '-' then (parseUnsignedChars rest).map Neg.neg
        else parseUnsignedChars (ch :: rest)) = _
    rw [show (match '-' :: renderMag d.c.natAbs d.e with
      | [] => (none : Option ℚ)
      | ch :: rest =>
        if ch = '-' then (parseUnsignedChars rest).map Neg.neg
        else parseUnsignedChars (ch :: rest))
      = (parseUnsignedChars (renderMag d.c.natAbs d.e)).map Neg.neg from by
        simp]
    rw [parseUnsigned_renderMag]
    have hc : ((d.c.natAbs : ℚ)) = -(d.c : ℚ) := cast_natAbs_of_neg hneg
    simp [hc]
  · rw [if_neg hneg]
    simp only [List.nil_append]
    rw [hr]
    show (match digitChar dd :: rest with
      | [] => none
      | ch :: rest =>
        if ch = '-' then (parseUnsignedChars rest).map Neg.neg
        else parseUnsignedChars (ch :: rest)) = _
    rw [show (match digitChar dd :: rest with
      | [] => (none : Option ℚ)
      | ch :: rest =>
        if ch = '-' then (parseUnsignedChars rest).map Neg.neg
        else parseUnsignedChars (ch :: rest))
      = parseUnsignedChars (digitChar dd :: rest) from by
        simp [digitChar_ne_minus hd10]]
    rw [← hr, parseUnsigned_renderMag]
    have hc : ((d.c.natAbs : ℚ)) = (d.c : ℚ) := cast_natAbs_of_nonneg (not_lt.mp hneg)
    rw [hc]

theorem stripZerosNat_val (n : ℕ) :
    ∀ e : Int, ((stripZerosNat n e).1 : ℚ) * 10 ^ (stripZerosNat n e).2
      = (n : ℚ) * 10 ^ e := by
  induction n using Nat.strong_induction_on with
  | _ n ih =>
    intro e
    rw [stripZerosNat]
    split
    case isTrue h =>
      have hdvd : 10 ∣ n := Nat.dvd_of_mod_eq_zero h.2
      have hlt : n / 10 < n := Nat.div_lt_self (Nat.pos_of_ne_zero h.1) (by norm_num)
      rw [ih (n / 10) hlt (e + 1)]
      have hdiv : ((n / 10 : ℕ) : ℚ) = (n : ℚ) / 10 :=
        Nat.cast_div hdvd (by norm_num)
      rw [hdiv, zpow_add_one₀ (by norm_num : (10 : ℚ) ≠ 0)]
      ring
    case isFalse h => rfl

theorem roundToContextPrec_small (n : ℕ) (e : Int) (h : numDigits n ≤ 28) :
    roundToContextPrec n e = (n, e) := by
  unfold roundToContextPrec
  rw [if_pos h]

theorem normalize_val_small (d : PyDecimal) (h : numDigits d.c.natAbs ≤ 28) :
    (normalize d).val = d.val := by
  unfold normalize
  split
  case isTrue h0 =>
    unfold PyDecimal.val
    simp [h0]
  case isFalse h0 =>
    rw [roundToContextPrec_small _ _ h]
    unfold PyDecimal.val
    dsimp only
    have hv := stripZerosNat_val d.c.natAbs d.e
    by_cases hneg : d.c < 0
    · rw [if_pos hneg]
      push_cast
      rw [neg_mul, hv]
      have hc : ((d.c.natAbs : ℚ)) = -(d.c : ℚ) := cast_natAbs_of_neg hneg
      rw [hc]
      ring
    · rw [if_neg hneg]
      push_cast
      rw [hv]
      have hc : ((d.c.natAbs : ℚ)) = (d.c : ℚ) := cast_natAbs_of_nonneg (not_lt.mp hneg)
      rw [hc]

theorem numDigits_of_bounds :
    ∀ (k n : ℕ), 10 ^ k ≤ n → n < 10 ^ (k + 1) → numDigits n = k + 1 := by
  intro k
  induction k with
  | zero =>
    intro n h1 h2
    rw [numDigits, if_pos (by simpa using h2)]
  | succ m ih =>
    intro n h1 h2
    have h10 : 10 ≤ 10 ^ (m + 1) := by
      calc 10 = 10 ^ 1 := (pow_one 10).symm
      _ ≤ 10 ^ (m + 1) := Nat.pow_le_pow_right (by norm_num) (by omega)
    rw [numDigits, if_neg (by omega)]
    rw [ih (n / 10) ?_ ?_]
    · rw [Nat.le_div_iff_mul_le (by norm_num)]
      calc 10 ^ m * 10 = 10 ^ (m + 1) := (pow_succ 10 m).symm
      _ ≤ n := h1
    · rw [Nat.div_lt_iff_lt_mul (by norm_num)]
      calc n < 10 ^ (m + 2) := h2
      _ = 10 ^ (m + 1) * 10 := pow_succ 10 (m + 1)

/-- C9 (amended): for every finite Decimal value whose coefficient has at
most 28 significant digits (the default decimal context precision),
rendering it with the ledger writer's `_format_number` (normalize,
minimal fixed-point form, comma separator) and re-parsing the rendered
string with the comma mapped back to a radix point recovers a Decimal
numerically equal to the original value, with exact decimal equality. -/
theorem format_number_roundtrip (d : PyDecimal)
    (h : numDigits d.c.natAbs ≤ 28) :
    parseDecimalString (_format_number d) = some d.val := by
  unfold _format_number
  rw [parse_renderChars (normalize d), normalize_val_small d h]

/-- C9 witness: the amended round trip applied to the value 12.34
(coefficient 1234, exponent −2). -/
theorem format_number_roundtrip_witness :
    parseDecimalString (_format_number ⟨1234, -2⟩)
      = some ((⟨1234, -2⟩ : PyDecimal).val) :=
  format_number_roundtrip ⟨1234, -2⟩ (by simp [numDigits])

/-- C9 (counterexample): the 29-digit value 12345678901234567890123456789
renders through `_format_number` (whose `Decimal.normalize` call rounds
to the 28-digit context precision with ties to even) to a string that
re-parses to 12345678901234567890123456790 — not the original value, so
the claimed exact round trip fails beyond 28 significant digits. -/
theorem format_number_roundtrip_cex :
    parseDecimalString (_format_number decC9)
      = some ((12345678901234567890123456790 : ℚ))
    ∧ decC9.val ≠ ((12345678901234567890123456790 : ℚ)) := by
  have h29 : numDigits (12345678901234567890123456789 : ℕ) = 29 :=
    numDigits_of_bounds 28 _ (by norm_num) (by norm_num)
  have hnorm : normalize decC9 = ⟨1234567890123456789012345679, 1⟩ := by
    unfold normalize decC9
    rw [if_neg (by norm_num)]
    dsimp only
    have habs : ((12345678901234567890123456789 : Int)).natAbs
        = (12345678901234567890123456789 : ℕ) := rfl
    rw [habs]
    unfold roundToContextPrec
    rw [if_neg (by omega)]
    rw [h29]
    norm_num
    unfold roundHalfEvenDiv
    norm_num
    rw [stripZerosNat]
    norm_num
  constructor
  · unfold _format_number
    rw [parse_renderChars (normalize decC9), hnorm]
    unfold PyDecimal.val
    norm_num
  · unfold decC9 PyDecimal.val
    norm_num

end Inwestomat
